import Mathlib

set_option maxRecDepth 8000

/-!
A shallow embedding of the filesystem server (`servers/filesystem/main.py`)
of the openapi-servers repository, together with theorems settling the
spec claims about it.

Modelling conventions:
* Machine strings are Lean `String`s; character-level work is done on
  `List Char` (`String.data`).
* The filesystem is a finite association list from canonical path strings
  to entries (file with text content, or directory), plus a list of paths
  on which the operating system denies deletion/IO with a permission error.
  Symbolic links are not modelled (the filesystem is symlink-free), so
  `Path.resolve()` is the purely lexical canonicalization: expand the
  user home, make the path absolute against the working directory, drop
  empty and `.` components, and fold `..` against the prefix built so far.
* Clock times are naturals counting seconds; the 2-minute token lifetime
  of the delete-confirmation flow is 120.
* Calls into external libraries keep their arguments: `difflib.unified_diff`
  is represented by a response constructor carrying the original and the
  fully edited text it is applied to; `uuid.uuid4()` is an input parameter
  of the handler (the freshly minted token).
-/

namespace FsModel

/-- Lowercase a character list, as Python `str.lower` acts on ASCII text. -/
def lowerChars (s : List Char) : List Char := s.map Char.toLower

/-- Python substring test `needle in hay` (empty needle is in everything). -/
def containsSub (hay needle : List Char) : Bool :=
  match hay with
  | [] => needle.isEmpty
  | c :: rest => needle.isPrefixOf (c :: rest) || containsSub rest needle

/-- Python `hay.replace(old, new, 1)`: replace the first occurrence of
`old` (an empty `old` matches at position 0). -/
def replaceFirst (hay old new : List Char) : List Char :=
  match hay with
  | [] => if old.isEmpty then new else []
  | c :: rest =>
    if old.isPrefixOf (c :: rest) then new ++ (c :: rest).drop old.length
    else c :: replaceFirst rest old new

def containsStr (hay needle : String) : Bool := containsSub hay.data needle.data

def replaceFirstStr (s old new : String) : String := ⟨replaceFirst s.data old.data new.data⟩

/-- A path component: the characters between two slashes. -/
abbrev Comp := List Char

/-- Split a raw path on slashes and drop the components that do not
survive canonicalization trivially: empty runs and `.`. -/
def pathComponents (s : List Char) : List Comp :=
  (s.splitOn '/').filter (fun c => !c.isEmpty && c != ['.'])

/-- Fold `..` components against the stack of components already kept
(`acc`, in reverse order); `..` at the root is dropped, as in
`PurePath("/..")` resolving to `/`. -/
def collapseAux : List Comp → List Comp → List Comp
  | acc, [] => acc.reverse
  | acc, c :: rest =>
    if c = ['.', '.'] then collapseAux acc.tail rest
    else collapseAux (c :: acc) rest

def collapse (cs : List Comp) : List Comp := collapseAux [] cs

/-- Render an absolute path from its components (`[]` renders as `/`). -/
def renderAbs (cs : List Comp) : List Char := '/' :: List.intercalate ['/'] cs

/-- `os.path.expanduser`: a leading `~` (alone or followed by `/`) is
replaced by the home directory; `~otheruser` forms are left unchanged
(no other users are configured in the model). -/
def expanduser (home : List Char) (s : List Char) : List Char :=
  if s.head? = some '~' then
    if s.tail.head? = some '/' || s.tail.isEmpty then home ++ s.tail else s
  else s

/-- Server configuration: the allow-list from `config.ALLOWED_DIRECTORIES`,
plus the ambient home directory and (canonical components of the) working
directory that `expanduser`/`resolve` consult. -/
structure Config where
  ALLOWED_DIRECTORIES : List String
  home : List Char
  cwd : List Comp
deriving DecidableEq

/-- `pathlib.Path(s).resolve()` on a symlink-free filesystem: absolutize
against the working directory, then collapse `.`/`..` lexically. -/
def resolveChars (cfg : Config) (s : List Char) : List Char :=
  let comps := pathComponents s
  let base := if s.head? = some '/' then [] else cfg.cwd
  renderAbs (collapse (base ++ comps))

/-- The canonical form computed by line 42 of `main.py`:
`pathlib.Path(os.path.expanduser(requested_path)).resolve()`. -/
def canonPath (cfg : Config) (p : String) : String :=
  ⟨resolveChars cfg (expanduser cfg.home p.data)⟩

/-- Payload of the 403 Access Denied detail object raised by
`normalize_path`. -/
structure AccessDeniedDetail where
  requested_path : String
  allowed_directories : List String
deriving DecidableEq

/-- The guard of the loop in `normalize_path`:
`str(requested).lower().startswith(allowed.lower())` for some allowed root. -/
def allowedCheck (cfg : Config) (requested : String) : Bool :=
  cfg.ALLOWED_DIRECTORIES.any (fun allowed =>
    (lowerChars allowed.data).isPrefixOf (lowerChars requested.data))

/-- `normalize_path` (main.py lines 41-54): canonicalize, accept iff the
canonical string starts case-insensitively with some allowed directory,
otherwise raise 403 carrying the rejected path and the allow-list.
The function performs no filesystem mutation (it is pure in the model). -/
def normalize_path (cfg : Config) (requested_path : String) :
    Except AccessDeniedDetail String :=
  let requested := canonPath cfg requested_path
  if allowedCheck cfg requested then .ok requested
  else .error ⟨requested, cfg.ALLOWED_DIRECTORIES⟩

/-- The configuration of the worked scenarios: one allowed root `/data`,
home `/root`, working directory `/root`. -/
def cfg0 : Config :=
  { ALLOWED_DIRECTORIES := [("/data" : String)]
    home := ("/root" : String).data
    cwd := [[('r' : Char), 'o', 'o', 't']] }

/-! ### Filesystem state -/

/-- A directory entry: a text file with its content, or a directory. -/
inductive Entry where
  | file (content : String)
  | dir
deriving DecidableEq

/-- The filesystem: entries keyed by canonical path string, plus the paths
on which the operating system raises `PermissionError` for destructive or
IO operations. -/
structure FS where
  entries : List (String × Entry)
  permDenied : List String
deriving DecidableEq

def FS.lookup (fs : FS) (p : String) : Option Entry :=
  (fs.entries.find? (fun e => e.1 == p)).map (fun e => e.2)

def FS.pathExists (fs : FS) (p : String) : Bool := (fs.lookup p).isSome

def FS.isFile (fs : FS) (p : String) : Bool :=
  match fs.lookup p with
  | some (.file _) => true
  | _ => false

def FS.isDir (fs : FS) (p : String) : Bool := fs.lookup p == some .dir

/-- `child` lies strictly below `parent` in the directory tree. -/
def isUnder (parent child : String) : Bool :=
  (parent.data ++ [('/' : Char)]).isPrefixOf child.data

def FS.denied (fs : FS) (p : String) : Bool := fs.permDenied.contains p

def FS.removeOne (fs : FS) (p : String) : FS :=
  { fs with entries := fs.entries.filter (fun e => e.1 != p) }

def FS.removeTree (fs : FS) (p : String) : FS :=
  { fs with entries := fs.entries.filter (fun e => !(e.1 == p || isUnder p e.1)) }

def FS.hasChild (fs : FS) (p : String) : Bool :=
  fs.entries.any (fun e => isUnder p e.1)

/-- Errors raised by `os.unlink` / `os.rmdir` (all are `OSError`s in
Python; `PermissionError` is a subclass of `OSError`). -/
inductive OsError where
  | notEmpty
  | permission
deriving DecidableEq

/-- `path.unlink()`: removes the file, or raises `PermissionError`. -/
def FS.unlink (fs : FS) (p : String) : Except OsError FS :=
  if fs.denied p then .error .permission else .ok (fs.removeOne p)

/-- `path.rmdir()`: raises `OSError(ENOTEMPTY)` on a non-empty directory,
`PermissionError` on a denied one, else removes the directory. -/
def FS.rmdir (fs : FS) (p : String) : Except OsError FS :=
  if fs.hasChild p then .error .notEmpty
  else if fs.denied p then .error .permission
  else .ok (fs.removeOne p)

/-- `shutil.rmtree(path)`: raises the underlying `PermissionError` when
removal of the root or of anything below it is denied, else removes the
whole subtree. -/
def FS.rmtree (fs : FS) (p : String) : Except OsError FS :=
  if fs.denied p || fs.permDenied.any (fun q => isUnder p q) then .error .permission
  else .ok (fs.removeTree p)

/-- `path.read_text()`: content of a file, `FileNotFoundError` when the
path has no entry, `PermissionError` when reading is denied, and some
other `OSError` (handled by the generic 500 branch) on a directory. -/
inductive ReadError where
  | notFound
  | permission
  | other
deriving DecidableEq

def FS.readText (fs : FS) (p : String) : Except ReadError String :=
  match fs.lookup p with
  | none => .error .notFound
  | some (.file c) => if fs.denied p then .error .permission else .ok c
  | some .dir => .error .other

/-- `path.write_text(content)`: overwrite or create the file;
`PermissionError` when denied; writing over a directory entry raises
`IsADirectoryError` (an unexpected error for the handler). -/
def FS.writeText (fs : FS) (p : String) (content : String) : Except ReadError FS :=
  match fs.lookup p with
  | some .dir => .error .other
  | _ =>
    if fs.denied p then .error .permission
    else .ok { fs with entries := (p, .file content) :: fs.entries.filter (fun e => e.1 != p) }

/-! ### Error taxonomy of the HTTP handlers -/

/-- The exception whose `str(e)` the 500 wrapper of `edit_file` names: the
edit-mismatch `HTTPException(400)` raised at line 228 (its string form
keeps the detail naming the unmatched `oldText`, truncated to 50
characters for display), or an OS error from the write itself. -/
inductive EditFailCause where
  | mismatch (oldText : String)
  | osError
deriving DecidableEq

/-- The typed failures the filesystem server raises as `HTTPException`s. -/
inductive ApiError where
  | accessDenied (detail : AccessDeniedDetail)
  | notFound (path : String)
  | invalidToken
  | expired
  | paramMismatch
  | dirNotEmpty
  | notFileOrDir (path : String)
  | permissionDenied (path : String)
  | editWriteFailed (path : String) (cause : EditFailCause)
  | unexpected
deriving DecidableEq

/-- HTTP status code used for each failure. -/
def ApiError.status : ApiError → Nat
  | .accessDenied _ => 403
  | .notFound _ => 404
  | .invalidToken => 400
  | .expired => 400
  | .paramMismatch => 400
  | .dirNotEmpty => 400
  | .notFileOrDir _ => 400
  | .permissionDenied _ => 403
  | .editWriteFailed _ _ => 500
  | .unexpected => 500

/-! ### delete_path -/

/-- Body of `POST /delete_path`. -/
structure DeletePathRequest where
  path : String
  recursive : Bool
  confirmation_token : Option String
deriving DecidableEq

/-- The in-memory `pending_confirmations` dict: token to
(original request data, expiry time). -/
abbrev PendingMap := List (String × DeletePathRequest × Nat)

def pendingLookup (m : PendingMap) (t : String) : Option (DeletePathRequest × Nat) :=
  (m.find? (fun e => e.1 == t)).map (fun e => e.2)

def pendingErase (m : PendingMap) (t : String) : PendingMap :=
  m.filter (fun e => e.1 != t)

def pendingInsert (m : PendingMap) (t : String) (v : DeletePathRequest × Nat) : PendingMap :=
  (t, v) :: pendingErase m t

/-- The whole mutable state of the server: filesystem plus the
`pending_confirmations` table. -/
structure ServerState where
  fs : FS
  pending_confirmations : PendingMap
deriving DecidableEq

/-- Successful responses of `POST /delete_path`. -/
inductive DeleteResponse where
  | confirmationRequired (confirmation_token : String) (expires_at : Nat)
  | success (message : String)
deriving DecidableEq

/-- `delete_path` (main.py lines 345-433). `now` is the current clock in
seconds; `newToken` stands for the `uuid.uuid4()` value minted in step 1.
A `PermissionError` from the inner `path.rmdir()` call is caught by the
`except OSError` clause and converted into the 400 Directory-not-empty
`HTTPException`, which the outer `except HTTPException` clause handles by
evicting the token; only a `PermissionError` escaping to the outer
`except PermissionError` clause (unlink / rmtree / the re-check) keeps
the token. -/
def delete_path (cfg : Config) (st : ServerState) (now : Nat) (newToken : String)
    (data : DeletePathRequest) : Except ApiError DeleteResponse × ServerState :=
  match normalize_path cfg data.path with
  | .error e => (.error (.accessDenied e), st)
  | .ok path =>
    match data.confirmation_token with
    | none =>
      if !st.fs.pathExists path then (.error (.notFound data.path), st)
      else
        let expiry := now + 120
        (.ok (.confirmationRequired newToken expiry),
          { st with pending_confirmations :=
              pendingInsert st.pending_confirmations newToken (data, expiry) })
    | some token =>
      match pendingLookup st.pending_confirmations token with
      | none => (.error .invalidToken, st)
      | some (stored, expiry) =>
        if now > expiry then
          (.error .expired,
            { st with pending_confirmations := pendingErase st.pending_confirmations token })
        else if stored.path != data.path || stored.recursive != data.recursive then
          (.error .paramMismatch,
            { st with pending_confirmations := pendingErase st.pending_confirmations token })
        else
          if !st.fs.pathExists path then
            (.error (.notFound data.path),
              { st with pending_confirmations := pendingErase st.pending_confirmations token })
          else if st.fs.isFile path then
            match st.fs.unlink path with
            | .error _ => (.error (.permissionDenied data.path), st)
            | .ok fs1 =>
              (.ok (.success (("Successfully deleted file: ") ++ data.path)),
                { fs := fs1
                  pending_confirmations := pendingErase st.pending_confirmations token })
          else if st.fs.isDir path then
            if data.recursive then
              match st.fs.rmtree path with
              | .error _ => (.error (.permissionDenied data.path), st)
              | .ok fs1 =>
                (.ok (.success (("Successfully deleted directory recursively: ") ++ data.path)),
                  { fs := fs1
                    pending_confirmations := pendingErase st.pending_confirmations token })
            else
              match st.fs.rmdir path with
              | .error _ =>
                (.error .dirNotEmpty,
                  { st with pending_confirmations :=
                      pendingErase st.pending_confirmations token })
              | .ok fs1 =>
                (.ok (.success (("Successfully deleted empty directory: ") ++ data.path)),
                  { fs := fs1
                    pending_confirmations := pendingErase st.pending_confirmations token })
          else
            (.error (.notFileOrDir data.path),
              { st with pending_confirmations := pendingErase st.pending_confirmations token })

/-! ### edit_file -/

/-- One find-and-replace step of `POST /edit_file`. -/
structure EditOperation where
  oldText : String
  newText : String
deriving DecidableEq

/-- Body of `POST /edit_file`. -/
structure EditFileRequest where
  path : String
  edits : List EditOperation
  dryRun : Bool
deriving DecidableEq

/-- Successful responses of `POST /edit_file`: a success message, or (on
dry run) the `DiffResponse` built from `difflib.unified_diff` applied to
the original and the fully edited content; the external diff call is
represented by the pair of texts it receives. -/
inductive EditFileResponse where
  | successMsg (message : String)
  | diff (original modified : String)
deriving DecidableEq

/-- The edit loop of `edit_file` (main.py lines 226-232): each edit must
occur in the progressively modified content, else the loop raises the
`HTTPException(400)` of line 228 naming the unmatched `oldText`;
otherwise the first occurrence is replaced. -/
def applyEdits (content : String) : List EditOperation → Except String String
  | [] => .ok content
  | e :: rest =>
    if containsStr content e.oldText then
      applyEdits (replaceFirstStr content e.oldText e.newText) rest
    else .error e.oldText

/-- `edit_file` (main.py lines 209-251): read, apply all edits in memory,
then either return the diff (dry run) or write the final content; the
file is written only after every edit succeeded. The whole edit-and-write
region sits in one `try` whose handlers are `except PermissionError`
(403) and `except Exception` (500): unlike `delete_path`, there is no
`except HTTPException` clause, so the 400 mismatch exception raised at
line 228 is itself caught by `except Exception` and re-raised as the 500
"Failed to write edited file {path}: {str(e)}" error, whose detail wraps
the mismatch message. -/
def edit_file (cfg : Config) (fs : FS) (data : EditFileRequest) :
    Except ApiError EditFileResponse × FS :=
  match normalize_path cfg data.path with
  | .error e => (.error (.accessDenied e), fs)
  | .ok path =>
    match fs.readText path with
    | .error .notFound => (.error (.notFound data.path), fs)
    | .error .permission => (.error (.permissionDenied data.path), fs)
    | .error .other => (.error .unexpected, fs)
    | .ok original =>
      match applyEdits original data.edits with
      | .error old => (.error (.editWriteFailed data.path (.mismatch old)), fs)
      | .ok modified =>
        if data.dryRun then (.ok (.diff original modified), fs)
        else
          match fs.writeText path modified with
          | .error .permission => (.error (.permissionDenied data.path), fs)
          | .error _ => (.error (.editWriteFailed data.path .osError), fs)
          | .ok fs1 =>
            (.ok (.successMsg (("Successfully edited file ") ++ data.path)), fs1)

/-! ### search_files -/

mutual

/-- A node of the directory tree walked by `os.walk`: a file name, or a
directory name with its children. -/
inductive FNode where
  | file (name : String)
  | dir (name : String) (children : FForest)

/-- The children of a directory, in `os.listdir` listing order. -/
inductive FForest where
  | nil
  | cons (head : FNode) (tail : FForest)

end

/-- Names of the directories among the children, in listing order. -/
def FForest.dirNames : FForest → List String
  | .nil => []
  | .cons (.dir name _) rest => name :: rest.dirNames
  | .cons (.file _) rest => rest.dirNames

/-- Names of the files among the children, in listing order. -/
def FForest.fileNames : FForest → List String
  | .nil => []
  | .cons (.file name) rest => name :: rest.fileNames
  | .cons (.dir _ _) rest => rest.fileNames

/-- Walk entries contributed by the subdirectories of `root`, in listing
order: for each directory child, its own entry followed by its subtree's
entries (the descent of top-down `os.walk`). -/
def walkSubdirs (root : String) : FForest → List (String × List String × List String)
  | .nil => []
  | .cons (.file _) rest => walkSubdirs root rest
  | .cons (.dir name ch) rest =>
    ((root ++ ("/") ++ name, ch.dirNames, ch.fileNames) ::
        walkSubdirs (root ++ ("/") ++ name) ch) ++
      walkSubdirs root rest

/-- `os.walk(root)` (top-down): yield `(root, dirs, files)` with the
entries in listing order, then walk each subdirectory in order. -/
def walk (root : String) (children : FForest) :
    List (String × List String × List String) :=
  (root, children.dirNames, children.fileNames) :: walkSubdirs root children

/-- Recursion core of `fnmatch`, structural on a fuel parameter so that
the function reduces in the kernel; every step shrinks pattern or text,
so fuel `pat.length + s.length + 1` is never exhausted. -/
def fnmatchAux : Nat → List Char → List Char → Bool
  | 0, _, _ => false
  | _ + 1, [], [] => true
  | _ + 1, [], _ :: _ => false
  | f + 1, '*' :: ps, [] => fnmatchAux f ps []
  | f + 1, '*' :: ps, c :: ss => fnmatchAux f ps (c :: ss) || fnmatchAux f ('*' :: ps) ss
  | f + 1, '?' :: ps, _ :: ss => fnmatchAux f ps ss
  | _ + 1, '?' :: _, [] => false
  | f + 1, p :: ps, c :: ss => p == c && fnmatchAux f ps ss
  | _ + 1, _ :: _, [] => false

/-- `fnmatch.fnmatchcase` on the modelled pattern fragment: literal
characters, `?` (any one character), `*` (any run); character classes are
outside the modelled fragment. -/
def fnmatchList (pat s : List Char) : Bool :=
  fnmatchAux (pat.length + s.length + 1) pat s

/-- `PurePath.parts` of a path string: the root `/` is a part of its own
for absolute paths, followed by the components. -/
def pyParts (s : String) : List Comp :=
  if s.data.head? = some '/' then [('/' : Char)] :: pathComponents s.data
  else pathComponents s.data

/-- `PurePath(pathStr).match(pattern)`: an absolute pattern must match all
parts; a relative pattern is matched against the trailing parts,
component-wise with `fnmatch` (case-sensitively, as on POSIX). -/
def pathMatch (pathStr : String) (pattern : String) : Bool :=
  let parts := pyParts pathStr
  let pats := pyParts pattern
  if pats.isEmpty then false
  else if pattern.data.head? = some '/' then
    parts.length == pats.length &&
      (List.zip pats parts).all (fun pr => fnmatchList pr.1 pr.2)
  else
    pats.length ≤ parts.length &&
      (List.zip pats (parts.drop (parts.length - pats.length))).all
        (fun pr => fnmatchList pr.1 pr.2)

/-- Body of `POST /search_files`. -/
structure SearchFilesRequest where
  path : String
  pattern : String
  excludePatterns : List String
deriving DecidableEq

/-- The walk-and-filter loop of `search_files` (main.py lines 321-335):
for each walked directory, skip it when its path matches an exclude
pattern (the walk itself still descends); otherwise keep every entry name
containing the pattern case-insensitively, re-validated case-sensitively
against the allow-list. -/
def searchMatches (cfg : Config) (base : String) (children : FForest)
    (pattern : String) (excludePatterns : List String) : List String :=
  (walk base children).flatMap (fun t =>
    if excludePatterns.any (fun pat => pathMatch t.1 pat) then []
    else
      (t.2.2 ++ t.2.1).filterMap (fun item =>
        if containsStr ⟨lowerChars item.data⟩ ⟨lowerChars pattern.data⟩ then
          if cfg.ALLOWED_DIRECTORIES.any
              (fun alt => alt.data.isPrefixOf (t.1 ++ ("/") ++ item).data) then
            some (t.1 ++ ("/") ++ item)
          else none
        else none))

/-- `search_files` (main.py lines 313-337): walk from the normalized base
path; an empty result is reported as the sentinel list. -/
def search_files (cfg : Config) (children : FForest) (data : SearchFilesRequest) :
    Except ApiError (List String) :=
  match normalize_path cfg data.path with
  | .error e => .error (.accessDenied e)
  | .ok base =>
    let results := searchMatches cfg base children data.pattern data.excludePatterns
    .ok (if results.isEmpty then [("No matches found")] else results)

/-- Build a forest from a list of nodes in listing order. -/
def forestOf : List FNode → FForest
  | [] => .nil
  | n :: rest => .cons n (forestOf rest)

def tree2 : FForest := forestOf [.file ("a.log"), .dir ("tmp") (forestOf [.file ("b.log")])]

def tree3 : FForest :=
  forestOf
    [.file ("a.log"),
     .dir ("tmp") (forestOf [.file ("b.log"), .dir ("sub") (forestOf [.file ("c.log")])])]

def fsA : FS := ⟨[(("/data/f.txt"), .file ("x"))], []⟩

def reqA : DeletePathRequest := ⟨("/data/f.txt"), false, none⟩

def stBug : ServerState :=
  ⟨⟨[(("/data/d"), .dir)], [("/data/d")]⟩, [(("t"), ⟨("/data/d"), false, none⟩, 1000)]⟩

/-! ### Helper lemmas -/

theorem isFile_pathExists {fs : FS} {p : String} (h : fs.isFile p = true) :
    fs.pathExists p = true := by
  unfold FS.isFile at h
  unfold FS.pathExists
  cases hl : fs.lookup p with
  | none => rw [hl] at h; simp at h
  | some e => simp [hl]

theorem isDir_pathExists {fs : FS} {p : String} (h : fs.isDir p = true) :
    fs.pathExists p = true := by
  unfold FS.isDir at h
  unfold FS.pathExists
  cases hl : fs.lookup p with
  | none => rw [hl] at h; simp at h
  | some e => simp [hl]

theorem isFile_not_isDir {fs : FS} {p : String} (h : fs.isFile p = true) :
    fs.isDir p = false := by
  unfold FS.isFile at h
  unfold FS.isDir
  cases hl : fs.lookup p with
  | none => rw [hl] at h; simp at h
  | some e =>
    rw [hl] at h
    cases e with
    | file c => simp [hl]
    | dir => simp at h

theorem pendingLookup_pendingErase (m : PendingMap) (t : String) :
    pendingLookup (pendingErase m t) t = none := by
  induction m with
  | nil => rfl
  | cons e rest ih =>
    unfold pendingErase at ih ⊢
    unfold pendingLookup at ih ⊢
    by_cases h : e.1 = t
    · simp [List.filter_cons, h, ih]
    · simp only [List.filter_cons]
      have hb : (e.1 != t) = true := by simp [bne_iff_ne, h]
      simp only [hb, if_pos]
      simp only [List.find?_cons]
      have hb2 : (e.1 == t) = false := by simp [h]
      simp [hb2, ih]

theorem find?_key_filter (l : List (String × Entry)) (q : String)
    (f : String × Entry → Bool) (hf : ∀ e, e.1 = q → f e = false) :
    List.find? (fun e => e.1 == q) (l.filter f) = none := by
  induction l with
  | nil => rfl
  | cons e rest ih =>
    simp only [List.filter_cons]
    by_cases h : e.1 = q
    · rw [hf e h]
      simpa using ih
    · by_cases hfe : f e = true
      · simp only [hfe, if_pos]
        have : (e.1 == q) = false := by simp [h]
        simp [List.find?_cons, this, ih]
      · simp only [Bool.not_eq_true] at hfe
        rw [hfe]
        simpa using ih

theorem removeTree_pathExists_false (fs : FS) (p q : String)
    (h : q = p ∨ isUnder p q = true) :
    (fs.removeTree p).pathExists q = false := by
  unfold FS.removeTree FS.pathExists FS.lookup
  simp only
  rw [find?_key_filter]
  · rfl
  · intro e he
    subst he
    rcases h with h | h
    · subst h; simp
    · simp [h]

/-! ### Claim theorems -/

/-- C1: for every request string `p`, `normalize_path` succeeds — returning
the canonicalized, symlink-resolved absolute path — if and only if that
canonical form starts, case-insensitively, with at least one configured
allowed root; otherwise the request fails with Access Denied (HTTP 403)
carrying the rejected path and the list of allowed directories, before any
filesystem operation (the function is pure in the model). In particular,
with allowed root `/data`, request `/data/../etc/passwd` is rejected and
`/data/sub/file.txt` is accepted. -/
theorem normalize_path_correct :
    (∀ cfg p,
      (normalize_path cfg p = .ok (canonPath cfg p) ↔
        allowedCheck cfg (canonPath cfg p) = true) ∧
      (normalize_path cfg p = .error ⟨canonPath cfg p, cfg.ALLOWED_DIRECTORIES⟩ ↔
        allowedCheck cfg (canonPath cfg p) = false) ∧
      (∀ out, normalize_path cfg p = .ok out → out = canonPath cfg p) ∧
      (ApiError.accessDenied ⟨canonPath cfg p, cfg.ALLOWED_DIRECTORIES⟩).status = 403) ∧
    normalize_path cfg0 ("/data/../etc/passwd") =
      .error ⟨("/etc/passwd"), [("/data")]⟩ ∧
    normalize_path cfg0 ("/data/sub/file.txt") = .ok ("/data/sub/file.txt") := by
  refine ⟨fun cfg p => ?_, rfl, rfl⟩
  unfold normalize_path
  by_cases h : allowedCheck cfg (canonPath cfg p)
  · simp [h, ApiError.status]
  · simp only [Bool.not_eq_true] at h
    simp [h, ApiError.status]

/-- Witness for C1 at concrete inputs. -/
theorem normalize_path_correct_witness :
    normalize_path cfg0 ("/data/x") = .ok (canonPath cfg0 ("/data/x")) :=
  ((normalize_path_correct.1 cfg0 ("/data/x")).1).mpr (by decide)

/-! ### Idempotence of normalization (C9 machinery) -/

/-- Pieces produced by `splitOnP` contain no separator. -/
theorem splitOnP_pieces (p : Char → Bool) :
    ∀ (l : List Char), ∀ piece ∈ l.splitOnP p, ∀ a ∈ piece, p a = false := by
  intro l
  induction l with
  | nil =>
    intro piece hp a ha
    rw [List.splitOnP_nil] at hp
    simp at hp
    subst hp
    simp at ha
  | cons c rest ih =>
    intro piece hp a ha
    rw [List.splitOnP_cons] at hp
    by_cases hc : p c
    · rw [if_pos hc] at hp
      rcases List.mem_cons.mp hp with h | h
      · subst h; simp at ha
      · exact ih piece h a ha
    · rw [if_neg hc] at hp
      cases hsp : rest.splitOnP p with
      | nil => exact absurd hsp (List.splitOnP_ne_nil p rest)
      | cons hd tl =>
        rw [hsp] at hp
        simp only [List.modifyHead] at hp
        rcases List.mem_cons.mp hp with h | h
        · subst h
          rcases List.mem_cons.mp ha with h | h
          · subst h; simpa using hc
          · exact ih hd (hsp ▸ List.mem_cons_self hd tl) a h
        · exact ih piece (hsp ▸ List.mem_cons_of_mem hd h) a ha

/-- Every component from `pathComponents` is nonempty, slash-free and
different from `.`. -/
theorem pathComponents_good (s : List Char) :
    ∀ c ∈ pathComponents s, c ≠ [] ∧ ('/' : Char) ∉ c ∧ c ≠ ['.'] := by
  intro c hc
  unfold pathComponents at hc
  obtain ⟨hmem, hpred⟩ := List.mem_filter.mp hc
  simp only [Bool.and_eq_true, Bool.not_eq_true', bne_iff_ne, ne_eq] at hpred
  refine ⟨?_, ?_, hpred.2⟩
  · intro h
    subst h
    simp [List.isEmpty] at hpred
  · intro hsl
    have := splitOnP_pieces (fun x => x == '/') s c hmem '/' hsl
    simp at this

/-- Components kept by `collapseAux` come from the stack or the input,
and `..` is never kept. -/
theorem collapseAux_mem :
    ∀ (l acc : List Comp) (c : Comp), c ∈ collapseAux acc l →
      c ∈ acc ∨ (c ∈ l ∧ c ≠ [('.' : Char), '.']) := by
  intro l
  induction l with
  | nil =>
    intro acc c hc
    unfold collapseAux at hc
    exact Or.inl (List.mem_reverse.mp hc)
  | cons d rest ih =>
    intro acc c hc
    unfold collapseAux at hc
    by_cases hd : d = [('.' : Char), '.']
    · rw [if_pos hd] at hc
      rcases ih acc.tail c hc with h | h
      · exact Or.inl (List.mem_of_mem_tail h)
      · exact Or.inr ⟨List.mem_cons_of_mem d h.1, h.2⟩
    · rw [if_neg hd] at hc
      rcases ih (d :: acc) c hc with h | h
      · rcases List.mem_cons.mp h with h | h
        · rw [h]
          exact Or.inr ⟨List.mem_cons_self d rest, hd⟩
        · exact Or.inl h
      · exact Or.inr ⟨List.mem_cons_of_mem d h.1, h.2⟩

/-- On a `..`-free input, `collapseAux` just appends. -/
theorem collapseAux_no_dotdot :
    ∀ (l acc : List Comp), (∀ c ∈ l, c ≠ [('.' : Char), '.']) →
      collapseAux acc l = acc.reverse ++ l := by
  intro l
  induction l with
  | nil =>
    intro acc _
    unfold collapseAux
    simp
  | cons d rest ih =>
    intro acc h
    unfold collapseAux
    rw [if_neg (h d (List.mem_cons_self d rest))]
    rw [ih (d :: acc) (fun c hc => h c (List.mem_cons_of_mem d hc))]
    simp

/-- Reparsing a rendered absolute path recovers its components, provided
they are nonempty, slash-free and different from `.`. -/
theorem pathComponents_renderAbs (cs : List Comp)
    (h : ∀ c ∈ cs, c ≠ [] ∧ ('/' : Char) ∉ c ∧ c ≠ ['.']) :
    pathComponents (renderAbs cs) = cs := by
  cases cs with
  | nil => decide
  | cons c0 rest =>
    unfold pathComponents renderAbs
    rw [List.splitOn]
    rw [List.splitOnP_cons]
    have h1 : (('/' : Char) == '/') = true := by decide
    rw [if_pos h1]
    have h2 : (List.intercalate [('/' : Char)] (c0 :: rest)).splitOnP (· == '/') =
        c0 :: rest := by
      have hx : ∀ l ∈ (c0 :: rest), ('/' : Char) ∉ l := fun l hl => (h l hl).2.1
      have := List.splitOn_intercalate (c0 :: rest) ('/' : Char) hx (by simp)
      rw [List.splitOn] at this
      exact this
    rw [h2]
    rw [List.filter_cons]
    have h3 : (!List.isEmpty ([] : List Char) && ([] : List Char) != ['.']) = false := by
      decide
    rw [h3]
    simp only [Bool.false_eq_true, if_neg, if_false]
    rw [List.filter_eq_self.mpr]
    intro a ha
    obtain ⟨hne, _, hdot⟩ := h a ha
    simp only [Bool.and_eq_true, Bool.not_eq_true', bne_iff_ne, ne_eq]
    constructor
    · cases a with
      | nil => exact absurd rfl hne
      | cons x xs => rfl
    · exact hdot

/-- Well-formedness of the configured working directory: its canonical
components are nonempty, slash-free and not `.` or `..`. -/
abbrev Config.CwdOk (cfg : Config) : Prop :=
  ∀ c ∈ cfg.cwd, c ≠ [] ∧ ('/' : Char) ∉ c ∧ c ≠ ['.'] ∧ c ≠ [('.' : Char), '.']

/-- The canonical form is a fixed point of canonicalization. -/
theorem canonPath_idem (cfg : Config) (p : String) (hcwd : Config.CwdOk cfg) :
    canonPath cfg (canonPath cfg p) = canonPath cfg p := by
  unfold canonPath resolveChars
  set s := expanduser cfg.home p.data with hs
  set comps := pathComponents s with hcomps
  set base := if s.head? = some '/' then [] else cfg.cwd with hbase
  set cs := collapse (base ++ comps) with hcs
  have hgood : ∀ c ∈ cs, c ≠ [] ∧ ('/' : Char) ∉ c ∧ c ≠ ['.'] ∧
      c ≠ [('.' : Char), '.'] := by
    intro c hc
    rcases collapseAux_mem (base ++ comps) [] c hc with h | h
    · simp at h
    · obtain ⟨hmem, hdd⟩ := h
      rcases List.mem_append.mp hmem with h | h
      · have hb : c ∈ cfg.cwd := by
          by_cases hhead : s.head? = some '/'
          · rw [hbase] at h; rw [if_pos hhead] at h; simp at h
          · rw [hbase] at h; rw [if_neg hhead] at h; exact h
        exact hcwd c hb
      · obtain ⟨h1, h2, h3⟩ := pathComponents_good s c h
        exact ⟨h1, h2, h3, hdd⟩
  have hgood3 : ∀ c ∈ cs, c ≠ [] ∧ ('/' : Char) ∉ c ∧ c ≠ ['.'] :=
    fun c hc => ⟨(hgood c hc).1, (hgood c hc).2.1, (hgood c hc).2.2.1⟩
  have hdata : (⟨renderAbs cs⟩ : String).data = renderAbs cs := rfl
  rw [hdata]
  have hexp : expanduser cfg.home (renderAbs cs) = renderAbs cs := by
    unfold expanduser renderAbs
    simp
  rw [hexp]
  have hhead : (renderAbs cs).head? = some '/' := by
    unfold renderAbs
    simp
  rw [hhead]
  simp only [if_pos]
  rw [pathComponents_renderAbs cs hgood3]
  rw [List.nil_append]
  unfold collapse
  rw [collapseAux_no_dotdot cs [] (fun c hc => (hgood c hc).2.2.2)]
  rfl

/-- C9: `normalize_path` is idempotent on its own output — whenever it
succeeds, running it again on the returned canonical path succeeds and
returns the same canonical path (for a well-formed working directory). -/
theorem normalize_path_idempotent (cfg : Config) (p out : String)
    (hcwd : Config.CwdOk cfg) (h : normalize_path cfg p = .ok out) :
    normalize_path cfg out = .ok out := by
  have hout : out = canonPath cfg p ∧ allowedCheck cfg (canonPath cfg p) = true := by
    by_cases hc : allowedCheck cfg (canonPath cfg p)
    · refine ⟨?_, hc⟩
      simp only [normalize_path, hc, if_true] at h
      exact (Except.ok.inj h).symm
    · simp only [Bool.not_eq_true] at hc
      simp [normalize_path, hc] at h
  obtain ⟨ho, hck⟩ := hout
  have hidem : canonPath cfg out = out := by
    rw [ho]; exact canonPath_idem cfg p hcwd
  unfold normalize_path
  rw [hidem]
  have hck2 : allowedCheck cfg out = true := by rw [ho]; exact hck
  rw [if_pos hck2]

/-- Witness for C9: a concrete well-formed configuration and a path whose
canonical form differs from the request. -/
theorem normalize_path_idempotent_witness :
    normalize_path cfg0 ("/data/sub") = .ok ("/data/sub") :=
  normalize_path_idempotent cfg0 ("/data/./sub") ("/data/sub") (by decide) (by rfl)

/-- C2: the two-step delete protocol. Without a token: 404 when the target
does not exist; otherwise nothing is deleted, and the minted token is
stored and returned with expiry exactly 2 minutes (120 s) after issuance.
With the token, matching parameters and an unexpired entry, the deletion
is performed (file case shown) and the token evicted; after expiry the
token is evicted and the call fails Expired (400). -/
theorem delete_path_two_step :
    (∀ cfg st now tk (data : DeletePathRequest) p,
      data.confirmation_token = none →
      normalize_path cfg data.path = .ok p →
      st.fs.pathExists p = false →
      delete_path cfg st now tk data = (.error (.notFound data.path), st) ∧
        (ApiError.notFound data.path).status = 404) ∧
    (∀ cfg st now tk (data : DeletePathRequest) p,
      data.confirmation_token = none →
      normalize_path cfg data.path = .ok p →
      st.fs.pathExists p = true →
      delete_path cfg st now tk data =
        (.ok (.confirmationRequired tk (now + 120)),
          ⟨st.fs, pendingInsert st.pending_confirmations tk (data, now + 120)⟩)) ∧
    (∀ cfg st now tk2 tok (data : DeletePathRequest) stored expiry p,
      data.confirmation_token = some tok →
      pendingLookup st.pending_confirmations tok = some (stored, expiry) →
      now ≤ expiry →
      stored.path = data.path →
      stored.recursive = data.recursive →
      normalize_path cfg data.path = .ok p →
      st.fs.isFile p = true →
      st.fs.denied p = false →
      delete_path cfg st now tk2 data =
        (.ok (.success (("Successfully deleted file: ") ++ data.path)),
          ⟨st.fs.removeOne p, pendingErase st.pending_confirmations tok⟩)) ∧
    (∀ cfg st now tk2 tok (data : DeletePathRequest) stored expiry p,
      data.confirmation_token = some tok →
      pendingLookup st.pending_confirmations tok = some (stored, expiry) →
      now > expiry →
      normalize_path cfg data.path = .ok p →
      delete_path cfg st now tk2 data =
        (.error .expired, ⟨st.fs, pendingErase st.pending_confirmations tok⟩) ∧
        ApiError.expired.status = 400) := by
  refine ⟨?_, ?_, ?_, ?_⟩
  · intro cfg st now tk data p htok hnorm hex
    refine ⟨?_, rfl⟩
    simp only [delete_path, hnorm, htok, hex]
    rfl
  · intro cfg st now tk data p htok hnorm hex
    simp only [delete_path, hnorm, htok, hex]
    rfl
  · intro cfg st now tk2 tok data stored expiry p htok hlook hle hpath hrec hnorm hfile
      hdeny
    have hex : st.fs.pathExists p = true := isFile_pathExists hfile
    simp only [delete_path, hnorm, htok, hlook]
    rw [if_neg (Nat.not_lt.mpr hle)]
    simp only [hpath, hrec, bne_self_eq_false, Bool.or_self, Bool.false_eq_true,
      if_neg, if_false]
    simp only [hex, Bool.not_true, Bool.false_eq_true, if_false, hfile, if_true,
      FS.unlink, hdeny]
  · intro cfg st now tk2 tok data stored expiry p htok hlook hgt hnorm
    refine ⟨?_, rfl⟩
    simp only [delete_path, hnorm, htok, hlook]
    rw [if_pos hgt]

/-- Witness for C2: the concrete file deletion flow. -/
theorem delete_path_two_step_witness :
    delete_path cfg0 ⟨fsA, []⟩ 0 ("tok") reqA =
      (.ok (.confirmationRequired ("tok") 120), ⟨fsA, [(("tok"), reqA, 120)]⟩) ∧
    delete_path cfg0 ⟨fsA, [(("tok"), reqA, 120)]⟩ 100 ("t2")
        ⟨("/data/f.txt"), false, some ("tok")⟩ =
      (.ok (.success ("Successfully deleted file: /data/f.txt")),
        ⟨fsA.removeOne ("/data/f.txt"), []⟩) ∧
    delete_path cfg0 ⟨fsA, [(("tok"), reqA, 120)]⟩ 121 ("t2")
        ⟨("/data/f.txt"), false, some ("tok")⟩ =
      (.error .expired, ⟨fsA, []⟩) := by
  refine ⟨?_, ?_, ?_⟩
  · exact delete_path_two_step.2.1 cfg0 ⟨fsA, []⟩ 0 ("tok") reqA ("/data/f.txt")
      rfl rfl rfl
  · exact delete_path_two_step.2.2.1 cfg0 ⟨fsA, [(("tok"), reqA, 120)]⟩ 100 ("t2")
      ("tok") ⟨("/data/f.txt"), false, some ("tok")⟩ reqA 120 ("/data/f.txt")
      rfl rfl (by decide) rfl rfl rfl rfl rfl
  · exact (delete_path_two_step.2.2.2 cfg0 ⟨fsA, [(("tok"), reqA, 120)]⟩ 121 ("t2")
      ("tok") ⟨("/data/f.txt"), false, some ("tok")⟩ reqA 120 ("/data/f.txt")
      rfl rfl (by decide) rfl).1

/-- C3: a call with a known, unexpired token but a path or recursive flag
differing from the stored ones fails Parameter Mismatch (400), evicts the
token and deletes nothing; any later call with that token (whatever its
parameters) then fails Invalid Token, the token having been evicted. -/
theorem delete_path_param_mismatch (cfg : Config) (st : ServerState) (now : Nat)
    (tk2 tok : String) (data stored : DeletePathRequest) (expiry : Nat) (p : String)
    (htok : data.confirmation_token = some tok)
    (hlook : pendingLookup st.pending_confirmations tok = some (stored, expiry))
    (hle : now ≤ expiry)
    (hmis : stored.path ≠ data.path ∨ stored.recursive ≠ data.recursive)
    (hnorm : normalize_path cfg data.path = .ok p) :
    delete_path cfg st now tk2 data =
      (.error .paramMismatch, ⟨st.fs, pendingErase st.pending_confirmations tok⟩) ∧
    ApiError.paramMismatch.status = 400 ∧
    ∀ (now2 : Nat) (tk3 : String) (data2 : DeletePathRequest) (p2 : String),
      data2.confirmation_token = some tok →
      normalize_path cfg data2.path = .ok p2 →
      delete_path cfg ⟨st.fs, pendingErase st.pending_confirmations tok⟩ now2 tk3 data2 =
        (.error .invalidToken, ⟨st.fs, pendingErase st.pending_confirmations tok⟩) := by
  refine ⟨?_, rfl, ?_⟩
  · have hguard : (stored.path != data.path || stored.recursive != data.recursive) = true := by
      rcases hmis with h | h
      · simp [bne_iff_ne, h]
      · simp [bne_iff_ne, h]
    simp only [delete_path, hnorm, htok, hlook]
    rw [if_neg (Nat.not_lt.mpr hle)]
    rw [if_pos hguard]
  · intro now2 tk3 data2 p2 htok2 hnorm2
    simp only [delete_path, hnorm2, htok2, pendingLookup_pendingErase]

/-- Witness for C3: mismatched recursive flag, then replay. -/
theorem delete_path_param_mismatch_witness :
    delete_path cfg0 ⟨fsA, [(("tok"), reqA, 120)]⟩ 10 ("t2")
        ⟨("/data/f.txt"), true, some ("tok")⟩ =
      (.error .paramMismatch, ⟨fsA, []⟩) ∧
    delete_path cfg0 ⟨fsA, []⟩ 20 ("t3") ⟨("/data/f.txt"), false, some ("tok")⟩ =
      (.error .invalidToken, ⟨fsA, []⟩) := by
  have h := delete_path_param_mismatch cfg0 ⟨fsA, [(("tok"), reqA, 120)]⟩ 10 ("t2")
    ("tok") ⟨("/data/f.txt"), true, some ("tok")⟩ reqA 120 ("/data/f.txt")
    rfl rfl (by decide) (Or.inr (by decide)) rfl
  exact ⟨h.1, h.2.2 20 ("t3") ⟨("/data/f.txt"), false, some ("tok")⟩ ("/data/f.txt")
    rfl rfl⟩

/-- C4: evaluation at the failing input. The confirmed non-recursive
deletion of an empty directory on which the operating system denies
removal raises `PermissionError` from `path.rmdir()`; being a subclass of
`OSError`, it is caught by the inner `except OSError` clause, reported as
the 400 Directory-not-empty failure, and the outer `except HTTPException`
clause then evicts the token — although the claim (and the code comment at
line 424) says a permission error performing the delete retains the token.
By contrast, the same permission denial on a file (caught by
`except PermissionError`) does retain the token. -/
theorem delete_path_rmdir_permission_evicts :
    stBug.fs.denied ("/data/d") = true ∧
    stBug.fs.hasChild ("/data/d") = false ∧
    pendingLookup stBug.pending_confirmations ("t") =
      some (⟨("/data/d"), false, none⟩, 1000) ∧
    delete_path cfg0 stBug 500 ("t2") ⟨("/data/d"), false, some ("t")⟩ =
      (.error .dirNotEmpty, ⟨stBug.fs, []⟩) ∧
    delete_path cfg0
        ⟨⟨[(("/data/f"), .file ("x"))], [("/data/f")]⟩,
          [(("t"), ⟨("/data/f"), false, none⟩, 1000)]⟩
        500 ("t2") ⟨("/data/f"), false, some ("t")⟩ =
      (.error (.permissionDenied ("/data/f")),
        ⟨⟨[(("/data/f"), .file ("x"))], [("/data/f")]⟩,
          [(("t"), ⟨("/data/f"), false, none⟩, 1000)]⟩) := by
  refine ⟨rfl, rfl, rfl, rfl, rfl⟩

def fsE : FS := ⟨[(("/data/f.txt"), .file ("hello world"))], []⟩

/-- C5: evaluation at the failing input. Edit 2 of 3 has no occurrence at
its turn (`applyEdits` stops at `zzz`), and the file on disk is left
unchanged — the all-or-nothing half of the claim holds. But the failure
surfaced to the caller is not the Edit Mismatch 400 of line 228: that
`HTTPException` is caught by `edit_file`'s own `except Exception` clause
(line 249, there being no `except HTTPException` as in `delete_path`) and
re-raised as the 500 "Failed to write edited file…" error wrapping the
mismatch message — so the claim's 400 EditMismatch shape never reaches
the caller. -/
theorem edit_file_mismatch_wrapped_500 :
    edit_file cfg0 fsE
        ⟨("/data/f.txt"),
          [⟨("hello"), ("H")⟩, ⟨("zzz"), ("y")⟩, ⟨("world"), ("W")⟩], false⟩ =
      (.error (.editWriteFailed ("/data/f.txt") (.mismatch ("zzz"))), fsE) ∧
    (ApiError.editWriteFailed ("/data/f.txt") (.mismatch ("zzz"))).status = 500 ∧
    applyEdits ("hello world")
        [⟨("hello"), ("H")⟩, ⟨("zzz"), ("y")⟩, ⟨("world"), ("W")⟩] =
      .error ("zzz") :=
  ⟨rfl, rfl, rfl⟩

/-- C6: `edit_file` with `dryRun = true` never writes: whatever the file
and the edit list, the filesystem after the call equals the one before,
and on success the response is the unified diff of the original content
versus the fully applied result. -/
theorem edit_file_dryRun_pure (cfg : Config) (fs : FS) (data : EditFileRequest)
    (hdry : data.dryRun = true) :
    (edit_file cfg fs data).2 = fs ∧
    ∀ p original modified,
      normalize_path cfg data.path = .ok p →
      fs.readText p = .ok original →
      applyEdits original data.edits = .ok modified →
      (edit_file cfg fs data).1 = .ok (.diff original modified) := by
  constructor
  · cases hnorm : normalize_path cfg data.path with
    | error e => simp [edit_file, hnorm]
    | ok p =>
      cases hread : fs.readText p with
      | error e => cases e <;> simp [edit_file, hnorm, hread]
      | ok original =>
        cases happ : applyEdits original data.edits with
        | error o => simp [edit_file, hnorm, hread, happ]
        | ok modified => simp [edit_file, hnorm, hread, happ, hdry]
  · intro p original modified hnorm hread happ
    simp [edit_file, hnorm, hread, happ, hdry]

/-- Witness for C6: a concrete dry run returns the diff pair and leaves
the state unchanged. -/
theorem edit_file_dryRun_pure_witness :
    (edit_file cfg0 fsE ⟨("/data/f.txt"), [⟨("hello"), ("H")⟩], true⟩).2 = fsE ∧
    (edit_file cfg0 fsE ⟨("/data/f.txt"), [⟨("hello"), ("H")⟩], true⟩).1 =
      .ok (.diff ("hello world") ("H world")) := by
  have h := edit_file_dryRun_pure cfg0 fsE
    ⟨("/data/f.txt"), [⟨("hello"), ("H")⟩], true⟩ rfl
  exact ⟨h.1, h.2 ("/data/f.txt") ("hello world") ("H world") rfl rfl rfl⟩

/-- C7, counterexample: with files `/data/a.log`, `/data/tmp/b.log` and
`/data/tmp/sub/c.log` and exclude pattern `*/tmp*`, the directory
`/data/tmp` matches the exclude glob, yet `/data/tmp/sub/c.log` — a path
lying under it — is returned: the `continue` in the walk loop skips only
the excluded directory itself, it does not prune the descent. -/
theorem search_files_counterexample :
    search_files cfg0 tree3 ⟨("/data"), ("log"), [("*/tmp*")]⟩ =
      .ok [("/data/a.log"), ("/data/tmp/sub/c.log")] ∧
    pathMatch ("/data/tmp") ("*/tmp*") = true ∧
    isUnder ("/data/tmp") ("/data/tmp/sub/c.log") = true :=
  ⟨rfl, by decide, by decide⟩

/-- C7, amended: exclusion applies per directory, not per subtree — every
returned match comes from a walked directory whose own path matches no
exclude glob, but the walk still descends below excluded directories, so
entries of deeper non-matching subdirectories are returned. In the
two-file scenario (`/data/a.log`, `/data/tmp/b.log`, exclude `*/tmp*`)
only `/data/a.log` is returned. -/
theorem search_files_excludes_directory_only :
    search_files cfg0 tree2 ⟨("/data"), ("log"), [("*/tmp*")]⟩ =
      .ok [("/data/a.log")] ∧
    ∀ cfg base children pattern excl m,
      m ∈ searchMatches cfg base children pattern excl →
      ∃ t ∈ walk base children,
        excl.any (fun pat => pathMatch t.1 pat) = false ∧
        ∃ item ∈ t.2.2 ++ t.2.1, m = t.1 ++ ("/") ++ item := by
  refine ⟨rfl, ?_⟩
  intro cfg base children pattern excl m hm
  unfold searchMatches at hm
  rw [List.mem_flatMap] at hm
  obtain ⟨t, ht, hm⟩ := hm
  by_cases hex : excl.any (fun pat => pathMatch t.1 pat)
  · rw [if_pos hex] at hm
    simp at hm
  · rw [if_neg hex] at hm
    rw [List.mem_filterMap] at hm
    obtain ⟨item, hitem, heq⟩ := hm
    refine ⟨t, ht, by simpa using hex, item, hitem, ?_⟩
    by_cases hc : containsStr ⟨lowerChars item.data⟩ ⟨lowerChars pattern.data⟩
    · rw [if_pos hc] at heq
      by_cases ha : cfg.ALLOWED_DIRECTORIES.any
          (fun alt => alt.data.isPrefixOf (t.1 ++ ("/") ++ item).data)
      · rw [if_pos ha] at heq
        exact (Option.some.inj heq).symm
      · rw [if_neg ha] at heq
        exact absurd heq (by simp)
    · rw [if_neg hc] at heq
      exact absurd heq (by simp)

/-- Witness for the amended C7: the origin of the scenario's only match. -/
theorem search_files_excludes_directory_only_witness :
    ∃ t ∈ walk ("/data") tree2,
      [("*/tmp*")].any (fun pat => pathMatch t.1 pat) = false ∧
      ∃ item ∈ t.2.2 ++ t.2.1, ("/data/a.log") = t.1 ++ ("/") ++ item :=
  search_files_excludes_directory_only.2 cfg0 ("/data") tree2 ("log") [("*/tmp*")]
    ("/data/a.log") (by decide)

theorem isDir_not_isFile {fs : FS} {p : String} (h : fs.isDir p = true) :
    fs.isFile p = false := by
  unfold FS.isDir at h
  rw [beq_iff_eq] at h
  unfold FS.isFile
  rw [h]

/-- C8: a confirmed non-recursive delete of a non-empty directory fails
Directory-not-empty (400) and removes nothing; the same deletion with
`recursive = true` and a valid confirmation token succeeds, removing the
directory and everything under it (and evicting the token). -/
theorem delete_path_directory_cases :
    (∀ cfg st now tk2 tok (data stored : DeletePathRequest) expiry p,
      data.confirmation_token = some tok →
      pendingLookup st.pending_confirmations tok = some (stored, expiry) →
      now ≤ expiry →
      stored.path = data.path →
      stored.recursive = data.recursive →
      data.recursive = false →
      normalize_path cfg data.path = .ok p →
      st.fs.isDir p = true →
      st.fs.hasChild p = true →
      delete_path cfg st now tk2 data =
        (.error .dirNotEmpty, ⟨st.fs, pendingErase st.pending_confirmations tok⟩) ∧
      ApiError.dirNotEmpty.status = 400) ∧
    (∀ cfg st now tk2 tok (data stored : DeletePathRequest) expiry p,
      data.confirmation_token = some tok →
      pendingLookup st.pending_confirmations tok = some (stored, expiry) →
      now ≤ expiry →
      stored.path = data.path →
      stored.recursive = data.recursive →
      data.recursive = true →
      normalize_path cfg data.path = .ok p →
      st.fs.isDir p = true →
      st.fs.denied p = false →
      st.fs.permDenied.any (fun q => isUnder p q) = false →
      delete_path cfg st now tk2 data =
        (.ok (.success (("Successfully deleted directory recursively: ") ++ data.path)),
          ⟨st.fs.removeTree p, pendingErase st.pending_confirmations tok⟩) ∧
      (st.fs.removeTree p).pathExists p = false ∧
      ∀ q, isUnder p q = true → (st.fs.removeTree p).pathExists q = false) := by
  constructor
  · intro cfg st now tk2 tok data stored expiry p htok hlook hle hpath hrec hre hnorm
      hdir hchild
    refine ⟨?_, rfl⟩
    have hex : st.fs.pathExists p = true := isDir_pathExists hdir
    have hfile : st.fs.isFile p = false := isDir_not_isFile hdir
    simp only [delete_path, hnorm, htok, hlook]
    rw [if_neg (Nat.not_lt.mpr hle)]
    simp only [hpath, hrec, bne_self_eq_false, Bool.or_self, Bool.false_eq_true,
      if_neg, if_false]
    simp only [hex, Bool.not_true, Bool.false_eq_true, if_false, hfile, hdir,
      if_true, hre, FS.rmdir, hchild]
  · intro cfg st now tk2 tok data stored expiry p htok hlook hle hpath hrec hre hnorm
      hdir hd1 hd2
    have hex : st.fs.pathExists p = true := isDir_pathExists hdir
    have hfile : st.fs.isFile p = false := isDir_not_isFile hdir
    refine ⟨?_, removeTree_pathExists_false st.fs p p (Or.inl rfl),
      fun q hq => removeTree_pathExists_false st.fs p q (Or.inr hq)⟩
    simp only [delete_path, hnorm, htok, hlook]
    rw [if_neg (Nat.not_lt.mpr hle)]
    simp only [hpath, hrec, bne_self_eq_false, Bool.or_self, Bool.false_eq_true,
      if_neg, if_false]
    simp only [hex, Bool.not_true, Bool.false_eq_true, if_false, hfile, hdir,
      if_true, hre, FS.rmtree, hd1, hd2, Bool.or_self]

def fsD : FS := ⟨[(("/data/dir"), .dir), (("/data/dir/file"), .file ("x"))], []⟩

/-- Witness for C8: a directory with one file inside. -/
theorem delete_path_directory_cases_witness :
    delete_path cfg0 ⟨fsD, [(("t"), ⟨("/data/dir"), false, none⟩, 1000)]⟩ 10 ("t2")
        ⟨("/data/dir"), false, some ("t")⟩ =
      (.error .dirNotEmpty, ⟨fsD, []⟩) ∧
    delete_path cfg0 ⟨fsD, [(("t"), ⟨("/data/dir"), true, none⟩, 1000)]⟩ 10 ("t2")
        ⟨("/data/dir"), true, some ("t")⟩ =
      (.ok (.success ("Successfully deleted directory recursively: /data/dir")),
        ⟨fsD.removeTree ("/data/dir"), []⟩) ∧
    (fsD.removeTree ("/data/dir")).pathExists ("/data/dir/file") = false := by
  refine ⟨?_, ?_, ?_⟩
  · exact (delete_path_directory_cases.1 cfg0
      ⟨fsD, [(("t"), ⟨("/data/dir"), false, none⟩, 1000)]⟩ 10 ("t2") ("t")
      ⟨("/data/dir"), false, some ("t")⟩ ⟨("/data/dir"), false, none⟩ 1000
      ("/data/dir") rfl rfl (by decide) rfl rfl rfl rfl rfl rfl).1
  · exact (delete_path_directory_cases.2 cfg0
      ⟨fsD, [(("t"), ⟨("/data/dir"), true, none⟩, 1000)]⟩ 10 ("t2") ("t")
      ⟨("/data/dir"), true, some ("t")⟩ ⟨("/data/dir"), true, none⟩ 1000
      ("/data/dir") rfl rfl (by decide) rfl rfl rfl rfl rfl rfl rfl).1
  · exact (delete_path_directory_cases.2 cfg0
      ⟨fsD, [(("t"), ⟨("/data/dir"), true, none⟩, 1000)]⟩ 10 ("t2") ("t")
      ⟨("/data/dir"), true, some ("t")⟩ ⟨("/data/dir"), true, none⟩ 1000
      ("/data/dir") rfl rfl (by decide) rfl rfl rfl rfl rfl rfl rfl).2.2
      ("/data/dir/file") (by decide)

/-- C10 (implicit): the confirmation step compares the raw request strings
stored before normalization — when the second call's path string differs
textually from the stored one, the call fails Parameter Mismatch and
evicts the token even if the two strings normalize to the same canonical
filesystem path, so the deletion is not performed. -/
theorem delete_path_compares_raw_strings (cfg : Config) (st : ServerState) (now : Nat)
    (tk2 tok : String) (data stored : DeletePathRequest) (expiry : Nat) (p : String)
    (htok : data.confirmation_token = some tok)
    (hlook : pendingLookup st.pending_confirmations tok = some (stored, expiry))
    (hle : now ≤ expiry)
    (hne : stored.path ≠ data.path)
    (_hsame : canonPath cfg stored.path = canonPath cfg data.path)
    (hnorm : normalize_path cfg data.path = .ok p) :
    delete_path cfg st now tk2 data =
      (.error .paramMismatch, ⟨st.fs, pendingErase st.pending_confirmations tok⟩) ∧
    ApiError.paramMismatch.status = 400 := by
  refine ⟨?_, rfl⟩
  have hguard : (stored.path != data.path || stored.recursive != data.recursive) = true := by
    simp [bne_iff_ne, hne]
  simp only [delete_path, hnorm, htok, hlook]
  rw [if_neg (Nat.not_lt.mpr hle)]
  rw [if_pos hguard]

/-- Witness for C10: `/data/./f.txt` normalizes to the stored
`/data/f.txt`, yet the raw strings differ and the call fails. -/
theorem delete_path_compares_raw_strings_witness :
    delete_path cfg0 ⟨fsA, [(("tok"), reqA, 120)]⟩ 10 ("t2")
        ⟨("/data/./f.txt"), false, some ("tok")⟩ =
      (.error .paramMismatch, ⟨fsA, []⟩) :=
  (delete_path_compares_raw_strings cfg0 ⟨fsA, [(("tok"), reqA, 120)]⟩ 10 ("t2")
    ("tok") ⟨("/data/./f.txt"), false, some ("tok")⟩ reqA 120 ("/data/f.txt")
    rfl rfl (by decide) (by decide) (by decide) rfl).1

end FsModel
